import Mathlib

/-!
Shallow embedding of the `excoptional` Option library (src/index.ts).

Modelling conventions:
* A JavaScript value of payload type `A` is modelled as `Option α`
  (Lean's `Option`), where `none` stands for the JS absence marker
  `undefined` and `some a` stands for a defined value `a : α`.
* The class `Option<A>` of the library, which stores a single field
  `val : A`, is modelled as the structure `ExOption α` with field
  `val : Option α`.
* JS scalar values (for the concrete claims about `0`, `""`, `false`,
  `null`, `3`, ...) are modelled by the inductive `JSVal`; JS numbers
  are modelled as integers, which suffices for every claim.
* `throw` (only in the private `internalGet`) is modelled as
  `Except.error`; exception-propagating variants of the public methods
  (suffix `E`) mirror the source's call sites of `internalGet` and are
  proved to always return `Except.ok`.
-/

/-- A scalar JavaScript value: `null`, a boolean, a number (modelled as
an integer) or a string.  `undefined` is NOT a `JSVal`: a possibly
undefined JS value is an `Option JSVal`. -/
inductive JSVal where
  | null
  | bool (b : Bool)
  | num (n : Int)
  | str (s : String)
deriving DecidableEq, Repr

/-- JS truthiness of a defined scalar value: `null`, `false`, `0` and
`""` are falsy, everything else is truthy. -/
def JSVal.truthy : JSVal → Bool
  | .null => false
  | .bool b => b
  | .num n => n != 0
  | .str s => s != ""

/-- JS string conversion of a defined scalar value (as used by the
template literal in `toString`). -/
def JSVal.toStr : JSVal → String
  | .null => "null"
  | .bool b => if b then "true" else "false"
  | .num n => toString n
  | .str s => s

/-- JS truthiness of a possibly-undefined scalar value: `undefined` is
falsy. -/
def jsTruthy : Option JSVal → Bool
  | none => false
  | some a => a.truthy

/-- The `Option<A>` class of the library: a wrapper storing a single
private field `val`, which may hold the absence marker (`none`). -/
structure ExOption (α : Type) where
  val : Option α
deriving DecidableEq, Repr

/-- Source: `export const None = (): None => new Option(undefined)` -/
def None {α : Type} : ExOption α := ⟨none⟩

/-- Source: `export const Some = <T>(val: T): Some<T> => new Option(val)`.
The argument is a JS value, which may itself be the absence marker. -/
def Some {α : Type} (val : Option α) : ExOption α := ⟨val⟩

namespace ExOption

/-- Source: `isNone(): boolean { return this.val === undefined; }` -/
def isNone (o : ExOption α) : Bool :=
  o.val.isNone

/-- Source: `isSome(): boolean { return this.val !== undefined; }` -/
def isSome (o : ExOption α) : Bool :=
  o.val.isSome

/-- Source: `exists(): boolean { return this.isSome(); }` -/
def exists' (o : ExOption α) : Bool :=
  o.isSome

/-- Source: `nonEmpty(): boolean { return this.isSome(); }` -/
def nonEmpty (o : ExOption α) : Bool :=
  o.isSome

/-- Source: `get(): A | None { return this.isSome() ? this.val : None(); }`
The union return type `A | None` is modelled as a sum; the library's
`None` type is `Option<never>`, modelled as `ExOption Empty`. -/
def get (o : ExOption α) : α ⊕ ExOption Empty :=
  match o.val with
  | some a => Sum.inl a
  | none => Sum.inr None

/-- The private `internalGet`: returns the contained value if the
instance is a Some, otherwise throws (modelled as `Except.error`). -/
def internalGet (o : ExOption α) : Except String α :=
  match o.val with
  | some a => Except.ok a
  | none =>
      Except.error "Attempted to get a None. If you're seeing this something internal went wrong."

/-- Source: `getOrElse<B>(otherVal: B): A | B` -/
def getOrElse (o : ExOption α) (otherVal : β) : α ⊕ β :=
  match o.val with
  | some a => Sum.inl a
  | none => Sum.inr otherVal

/-- Source: `orElse<B>(otherOption)` (modelled at a common payload type). -/
def orElse (o : ExOption α) (otherOption : ExOption α) : ExOption α :=
  match o.val with
  | some _ => o
  | none => otherOption

/-- Source: `map<B>(fn): Option<B>`: the callback receives the contained value
and returns a JS value (possibly `undefined`), which is wrapped with
`Some`. -/
def map (o : ExOption α) (fn : α → Option β) : ExOption β :=
  match o.val with
  | some a => Some (fn a)
  | none => None

/-- Source: `fold<B>(fn, alternativeVal?)`: `this.map(fn).getOrElse(alt)`; the
result type `B | undefined` is `Option β`. -/
def fold (o : ExOption α) (fn : α → Option β) (alternativeVal : Option β) : Option β :=
  match (o.map fn).val with
  | some b => some b
  | none => alternativeVal

/-- Source: `flatMap<B>(fn): Option<B>` -/
def flatMap (o : ExOption α) (fn : α → ExOption β) : ExOption β :=
  match o.val with
  | some a => fn a
  | none => None

/-- Source: `then<B>(fn)`: the callback may return a non-Option JS value
(`Sum.inl`) or an Option instance (`Sum.inr`, the `instanceof Option`
branch). -/
def thenM (o : ExOption α) (fn : α → Option β ⊕ ExOption β) : ExOption β :=
  match o.val with
  | some a =>
      match fn a with
      | Sum.inr result => result
      | Sum.inl result => Some result
  | none => None

/-- Source: `filter(filterFn): Option<A>` -/
def filter (o : ExOption α) (filterFn : α → Bool) : ExOption α :=
  match o.val with
  | some a => if filterFn a then o else None
  | none => None

/-- Source: `filterNot(filterFn): Option<A>` -/
def filterNot (o : ExOption α) (filterFn : α → Bool) : ExOption α :=
  match o.val with
  | some a => if filterFn a then None else o
  | none => o

/-- Source: `contains(val, equalityFn)` (the default equality `===` is passed
explicitly). -/
def contains (o : ExOption α) (v : α) (equalityFn : α → α → Bool) : Bool :=
  match o.val with
  | some a => if equalityFn a v then true else false
  | none => false

/-- Source: `toArray(): [A] | []` -/
def toArray (o : ExOption α) : List α :=
  match o.val with
  | some a => [a]
  | none => []

/-- Source: `toSet(): Set<A> { return this.isSome() ?
new Set<A>().add(this.internalGet()) : new Set(); }`
A JS `Set` is modelled as a `Finset`; `new Set<A>().add(x)` is the
insertion of `x` into the empty finite set. -/
def toSet [DecidableEq α] (o : ExOption α) : Finset α :=
  match o.val with
  | some a => insert a ∅
  | none => ∅

/-- Source: `toString(): string` (at the scalar universe, since the template
literal stringifies the contained JS value). -/
def toString (o : ExOption JSVal) : String :=
  match o.val with
  | some a => "Some(" ++ a.toStr ++ ")"
  | none => "None"

/-- Source: `toStr(): string { return this.toString(); }` -/
def toStr (o : ExOption JSVal) : String :=
  o.toString

/-- Source: `static of<A>(val?: A): Option<A> { return val ? Some(val) : None(); }`
The test `val ?` is JS truthiness of the argument. -/
def of (val : Option JSVal) : ExOption JSVal :=
  if jsTruthy val then Some val else None

end ExOption

/-- A possibly Option-wrapping JS value (the universe `flatten` works
over): either a scalar (not an Option instance), or an Option instance
whose stored field is again such a value. -/
inductive JVal where
  | base (v : JSVal)
  | opt (v : Option JVal)
deriving Repr

/-- The `instanceof Option` test applied to the result of `get()`:
an Option-instance payload passes, a scalar payload does not, and a
returned `None()` instance is itself an Option instance. -/
def isOptionInst : JVal ⊕ ExOption Empty → Bool
  | Sum.inl (JVal.opt _) => true
  | Sum.inl (JVal.base _) => false
  | Sum.inr _ => true

/-- The cast `this.internalGet() as unknown as Option<B>`: reinterpret
a JS value as an Option instance (only ever applied to `JVal.opt`). -/
def jvalAsOption : JVal → ExOption JVal
  | JVal.opt w => ⟨w⟩
  | JVal.base b => ⟨some (JVal.base b)⟩

namespace ExOption

/-- Source: `flatten<B>(): Option<B>`, over the universe of possibly
Option-wrapping values:
```
if (this.isNone()) return None();
if (this.isSome() && this.get() instanceof Option)
    return this.internalGet() as unknown as Option<B>;
return this;
``` -/
def flatten (o : ExOption JVal) : ExOption JVal :=
  match o.val with
  | none => None
  | some (JVal.opt w) => ⟨w⟩
  | some (JVal.base _) => o

end ExOption

/-- A JS value that is either a (curried) function or a non-function
scalar, as tested by `typeof v === 'function'` in `ap`.  A function
consumes one defined argument of type `α` and returns a JS value
(possibly `undefined`) of the same universe. -/
inductive CVal (α : Type) where
  | scalar (a : α)
  | func (f : α → Option (CVal α))

namespace ExOption

/-- Source: `ap<B, C>(opt: Option<B>): Option<C>`:
```
if (this.isNone()) return None();
if (typeof this.get() !== 'function') return None();
const underlyingFunction = this.get() as unknown as (v: B) => C;
return opt.map(underlyingFunction);
``` -/
def ap (o : ExOption (CVal α)) (opt : ExOption α) : ExOption (CVal α) :=
  if o.isNone then None
  else
    match o.get with
    | Sum.inl (CVal.func f) => opt.map f
    | _ => None

/-- The local helper `recurse` of `liftN`: folds `ap` from the left
over the remaining argument list. -/
def recurse (opt : ExOption (CVal α)) : List (ExOption α) → ExOption (CVal α)
  | [] => opt
  | shadowArg :: shadowArgs => recurse (opt.ap shadowArg) shadowArgs

/-- Source: `static liftN<T>(fn, ...args)`: seeds `args[0].map(() => fn)` and
then calls `recurse` on the FULL argument list.  The variadic nonempty
argument tuple `[Option<unknown>, ...Option<unknown>[]]` is modelled as
a head argument plus the list of remaining arguments. -/
def liftN (fn : CVal α) (arg1 : ExOption α) (rest : List (ExOption α)) :
    ExOption (CVal α) :=
  recurse (arg1.map (fun _ => some fn)) (arg1 :: rest)

end ExOption

namespace ExOption

/-! Exception-propagating variants of the public methods that invoke
the throwing private accessor `internalGet`.  Each mirrors the source
text, threading the possible `Except.error` of `internalGet` outward;
the theorems below show every one of them always returns `Except.ok`
of the corresponding pure method. -/

/-- Source: `getOrElse` with `internalGet`'s exception propagated. -/
def getOrElseE (o : ExOption α) (otherVal : β) : Except String (α ⊕ β) :=
  if o.isSome then (o.internalGet).map Sum.inl
  else Except.ok (Sum.inr otherVal)

/-- Source: `map` with `internalGet`'s exception propagated. -/
def mapE (o : ExOption α) (fn : α → Option β) : Except String (ExOption β) :=
  if o.isSome then (o.internalGet).map (fun a => Some (fn a))
  else Except.ok None

/-- Source: `fold` with `internalGet`'s exception propagated
(`this.map(fn).getOrElse(alternativeVal)`). -/
def foldE (o : ExOption α) (fn : α → Option β) (alternativeVal : Option β) :
    Except String (Option β) :=
  (o.mapE fn).bind (fun m =>
    (m.getOrElseE alternativeVal).map (fun r =>
      match r with
      | Sum.inl b => some b
      | Sum.inr v => v))

/-- Source: `flatMap` with `internalGet`'s exception propagated. -/
def flatMapE (o : ExOption α) (fn : α → ExOption β) : Except String (ExOption β) :=
  if o.isSome then (o.internalGet).map fn
  else Except.ok None

/-- Source: `then` with `internalGet`'s exception propagated. -/
def thenE (o : ExOption α) (fn : α → Option β ⊕ ExOption β) :
    Except String (ExOption β) :=
  if o.isSome then
    (o.internalGet).map (fun a =>
      match fn a with
      | Sum.inr result => result
      | Sum.inl result => Some result)
  else Except.ok None

/-- Source: `flatten` with `internalGet`'s exception propagated. -/
def flattenE (o : ExOption JVal) : Except String (ExOption JVal) :=
  if o.isNone then Except.ok None
  else if o.isSome && isOptionInst o.get then
    (o.internalGet).map jvalAsOption
  else Except.ok o

/-- Source: `filter` with `internalGet`'s exception propagated. -/
def filterE (o : ExOption α) (filterFn : α → Bool) : Except String (ExOption α) :=
  if o.isSome then
    (o.internalGet).map (fun a => if filterFn a then o else None)
  else Except.ok None

/-- Source: `filterNot` with `internalGet`'s exception propagated. -/
def filterNotE (o : ExOption α) (filterFn : α → Bool) : Except String (ExOption α) :=
  if o.isSome then
    (o.internalGet).map (fun a => if filterFn a then None else o)
  else Except.ok o

/-- Source: `contains` with `internalGet`'s exception propagated. -/
def containsE (o : ExOption α) (v : α) (equalityFn : α → α → Bool) :
    Except String Bool :=
  if o.isSome then
    (o.internalGet).map (fun a => if equalityFn a v then true else false)
  else Except.ok false

/-- Source: `toArray` with `internalGet`'s exception propagated. -/
def toArrayE (o : ExOption α) : Except String (List α) :=
  if o.isSome then (o.internalGet).map (fun a => [a])
  else Except.ok []

/-- Source: `toSet` with `internalGet`'s exception propagated. -/
def toSetE [DecidableEq α] (o : ExOption α) : Except String (Finset α) :=
  if o.isSome then (o.internalGet).map (fun a => insert a ∅)
  else Except.ok ∅

/-- Source: `toString` with `internalGet`'s exception propagated. -/
def toStringE (o : ExOption JSVal) : Except String String :=
  if o.isSome then (o.internalGet).map (fun a => "Some(" ++ a.toStr ++ ")")
  else Except.ok "None"

/-- Source: `ap` with `map`'s possible exception propagated (the body of `ap`
itself calls only the non-throwing `get` and then `opt.map`). -/
def apE (o : ExOption (CVal α)) (opt : ExOption α) :
    Except String (ExOption (CVal α)) :=
  if o.isNone then Except.ok None
  else
    match o.get with
    | Sum.inl (CVal.func f) => opt.mapE f
    | _ => Except.ok None

end ExOption

/-- Helper: whether an `Except` computation returned normally. -/
def exceptOk (e : Except ε α) : Bool :=
  match e with
  | Except.ok _ => true
  | Except.error _ => false

/-- The fully curried function `a => b => c => a + b + c` of the spec's
`liftN` example, as a value of the function universe over integers. -/
def add3 : CVal Int :=
  CVal.func (fun a =>
    some (CVal.func (fun b =>
      some (CVal.func (fun c =>
        some (CVal.scalar (a + b + c)))))))

namespace ExOption

/-- Helper: applying an absent accumulator to anything yields a None. -/
theorem ap_none_left (opt : ExOption α) : ap None opt = None := rfl

/-- Helper: applying any accumulator to an absent argument yields a
None. -/
theorem ap_none_right (o : ExOption (CVal α)) : ap o None = None := by
  obtain ⟨v⟩ := o
  cases v with
  | none => rfl
  | some c => cases c <;> rfl

/-- Helper: folding over any argument list from an absent accumulator
stays absent. -/
theorem recurse_none (args : List (ExOption α)) :
    recurse None args = None := by
  induction args with
  | nil => rfl
  | cons a rest ih => simpa [recurse, ap_none_left] using ih

/-- Helper: if any argument in the list is absent, the fold is absent
whatever the accumulator. -/
theorem recurse_mem_none (args : List (ExOption α)) (acc : ExOption (CVal α))
    (h : None ∈ args) : recurse acc args = None := by
  induction args generalizing acc with
  | nil => cases h
  | cons a rest ih =>
      rcases List.mem_cons.mp h with h1 | h2
      · subst h1
        simp only [recurse, ap_none_right]
        exact recurse_none rest
      · exact ih (ap acc a) h2

/-- Helper: the local `recurse` of `liftN` is a left fold of `ap`. -/
theorem recurse_eq_foldl (args : List (ExOption α)) (acc : ExOption (CVal α)) :
    recurse acc args = List.foldl ap acc args := by
  induction args generalizing acc with
  | nil => rfl
  | cons a rest ih => simp [recurse, List.foldl, ih]

end ExOption

/-- C1: the claim says `of(0)`, `of("")` and `of(false)` produce a Some
of the value, `of(0) = some(0)`.  The code's truthiness test
`val ? Some(val) : None()` instead sends every falsy value to a None:
evaluated at the failing inputs, `of(0)`, `of("")` and `of(false)` are
all the absent instance, so `of(0)` is not classified present the way
`some(0)` is. -/
theorem of_falsy_values_return_none :
    ExOption.of (some (JSVal.num 0)) = None ∧
    ExOption.of (some (JSVal.str "")) = None ∧
    ExOption.of (some (JSVal.bool false)) = None ∧
    (ExOption.of (some (JSVal.num 0))).isSome = false ∧
    (Some (some (JSVal.num 0))).isSome = true := by
  exact ⟨rfl, rfl, rfl, rfl, rfl⟩

/-- C2: an instance is classified absent exactly when its stored field
is the absence marker `undefined`; `isSome` is the pointwise negation
of `isNone` (mutually exclusive, always defined); and instances
containing `0`, `""` or `false` are classified present. -/
theorem isNone_iff_absence_marker :
    (∀ (α : Type) (o : ExOption α), o.isNone = true ↔ o.val = none) ∧
    (∀ (α : Type) (o : ExOption α), o.isSome = !o.isNone) ∧
    (Some (some (JSVal.num 0))).isSome = true ∧
    (Some (some (JSVal.str ""))).isSome = true ∧
    (Some (some (JSVal.bool false))).isSome = true := by
  refine ⟨?_, ?_, rfl, rfl, rfl⟩
  · intro α o
    obtain ⟨v⟩ := o
    cases v <;> simp [ExOption.isNone]
  · intro α o
    obtain ⟨v⟩ := o
    cases v <;> rfl

/-- C4: constructing a Some with the absence marker yields an instance
equal to the canonical None at the representation level; it is
classified absent and behaves as a None under the operations. -/
theorem some_of_marker_degrades_to_none :
    (∀ (α : Type), Some (none : Option α) = (None : ExOption α)) ∧
    (Some (none : Option JSVal)).isNone = true ∧
    (∀ (α β : Type) (fn : α → Option β), (Some (none : Option α)).map fn = None) ∧
    (∀ (α β : Type) (fn : α → ExOption β), (Some (none : Option α)).flatMap fn = None) ∧
    (∀ (α : Type) (p : α → Bool), (Some (none : Option α)).filter p = None) ∧
    (∀ (α : Type), (Some (none : Option α)).get = Sum.inr None) ∧
    (Some (none : Option JSVal)).toString = "None" := by
  exact ⟨fun α => rfl, rfl, fun α β fn => rfl, fun α β fn => rfl,
    fun α p => rfl, fun α => rfl, rfl⟩

/-- C5: chaining with `flatMap` is associative: for every instance and
all Option-returning callbacks `f` and `g`,
`opt.flatMap(f).flatMap(g) = opt.flatMap(v => f(v).flatMap(g))`. -/
theorem flatMap_assoc :
    ∀ (α β γ : Type) (opt : ExOption α) (f : α → ExOption β) (g : β → ExOption γ),
      (opt.flatMap f).flatMap g = opt.flatMap (fun v => (f v).flatMap g) := by
  intro α β γ opt f g
  obtain ⟨v⟩ := opt
  cases v <;> rfl

/-- C6: `flatten` returns a None on an absent instance; on a present
instance whose contained value is an Option instance it returns that
inner Option; on a present instance whose contained value is not an
Option it returns the receiver unchanged; and doubly wrapped values
normalize, `some(some(v)).flatten() = some(v)` (the result is an
Option by the very type of `flatten`). -/
theorem flatten_spec :
    (None : ExOption JVal).flatten = None ∧
    (∀ (w : Option JVal),
      (Some (some (JVal.opt w)) : ExOption JVal).flatten = ⟨w⟩) ∧
    (∀ (b : JSVal),
      (Some (some (JVal.base b)) : ExOption JVal).flatten = Some (some (JVal.base b))) ∧
    (∀ (v : JSVal),
      (Some (some (JVal.opt (some (JVal.base v)))) : ExOption JVal).flatten =
        Some (some (JVal.base v))) := by
  exact ⟨rfl, fun w => rfl, fun b => rfl, fun v => rfl⟩

/-- C7: on a present instance, `filter p` and `filterNot p` form an
exact partition — exactly one of them is the receiver itself and the
other is a None (the receiver, being present, is never the None) — and
on an absent instance both are a None. -/
theorem filter_filterNot_partition :
    (∀ (α : Type) (p : α → Bool) (a : α),
      (Some (some a) : ExOption α).isSome = true ∧
      (None : ExOption α).isSome = false ∧
      (((Some (some a) : ExOption α).filter p = Some (some a) ∧
          (Some (some a) : ExOption α).filterNot p = None) ∨
        ((Some (some a) : ExOption α).filter p = None ∧
          (Some (some a) : ExOption α).filterNot p = Some (some a)))) ∧
    (∀ (α : Type) (p : α → Bool),
      (None : ExOption α).filter p = None ∧
      (None : ExOption α).filterNot p = None) := by
  constructor
  · intro α p a
    refine ⟨rfl, rfl, ?_⟩
    by_cases h : p a = true
    · left
      constructor
      · simp [ExOption.filter, Some, h]
      · simp [ExOption.filterNot, Some, None, h]
    · right
      constructor
      · simp [ExOption.filter, Some, None, h]
      · simp [ExOption.filterNot, Some, h]
  · intro α p
    exact ⟨rfl, rfl⟩

/-- C9: the string forms are the exact literals of the spec:
`some(3).toString() = "Some(3)"` and `none().toString() = "None"`. -/
theorem toString_literals :
    (Some (some (JSVal.num 3))).toString = "Some(3)" ∧
    (None : ExOption JSVal).toString = "None" := by
  exact ⟨rfl, rfl⟩

/-- C10: the direct constructor `Some` treats only `undefined` as the
absence marker, so `Some(null)` is a present instance, while `of(null)`
is a None — the null-to-None design choice lives in `of` alone. -/
theorem some_null_present_but_of_null_absent :
    (Some (some JSVal.null)).isSome = true ∧
    ExOption.of (some JSVal.null) = None ∧
    (Some (some JSVal.null)).isNone = false := by
  exact ⟨rfl, rfl, rfl⟩

/-- Helper: the throwing branch of `internalGet` runs exactly on absent
instances: the call returns normally if and only if the receiver is a
Some. -/
theorem internalGet_ok_iff_isSome (o : ExOption α) :
    exceptOk o.internalGet = o.isSome := by
  obtain ⟨v⟩ := o
  cases v <;> rfl

/-- Helper: `getOrElseE` never propagates an error. -/
theorem getOrElseE_ok (o : ExOption α) (v : β) :
    o.getOrElseE v = Except.ok (o.getOrElse v) := by
  obtain ⟨w⟩ := o
  cases w <;> rfl

/-- Helper: `mapE` never propagates an error. -/
theorem mapE_ok (o : ExOption α) (fn : α → Option β) :
    o.mapE fn = Except.ok (o.map fn) := by
  obtain ⟨w⟩ := o
  cases w <;> rfl

/-- Helper: `foldE` never propagates an error. -/
theorem foldE_ok (o : ExOption α) (fn : α → Option β) (alt : Option β) :
    o.foldE fn alt = Except.ok (o.fold fn alt) := by
  obtain ⟨w⟩ := o
  cases w with
  | none => rfl
  | some a =>
      cases hfa : fn a <;>
        simp [ExOption.foldE, ExOption.mapE, ExOption.getOrElseE, ExOption.fold,
          ExOption.map, ExOption.internalGet, ExOption.isSome, Some, hfa,
          Except.bind, Except.map]

/-- Helper: `flatMapE` never propagates an error. -/
theorem flatMapE_ok (o : ExOption α) (fn : α → ExOption β) :
    o.flatMapE fn = Except.ok (o.flatMap fn) := by
  obtain ⟨w⟩ := o
  cases w <;> rfl

/-- Helper: `thenE` never propagates an error. -/
theorem thenE_ok (o : ExOption α) (fn : α → Option β ⊕ ExOption β) :
    o.thenE fn = Except.ok (o.thenM fn) := by
  obtain ⟨w⟩ := o
  cases w <;> rfl

/-- Helper: `flattenE` never propagates an error. -/
theorem flattenE_ok (o : ExOption JVal) :
    o.flattenE = Except.ok o.flatten := by
  obtain ⟨w⟩ := o
  cases w with
  | none => rfl
  | some v => cases v <;> rfl

/-- Helper: `filterE` never propagates an error. -/
theorem filterE_ok (o : ExOption α) (p : α → Bool) :
    o.filterE p = Except.ok (o.filter p) := by
  obtain ⟨w⟩ := o
  cases w <;> rfl

/-- Helper: `filterNotE` never propagates an error. -/
theorem filterNotE_ok (o : ExOption α) (p : α → Bool) :
    o.filterNotE p = Except.ok (o.filterNot p) := by
  obtain ⟨w⟩ := o
  cases w <;> rfl

/-- Helper: `containsE` never propagates an error. -/
theorem containsE_ok (o : ExOption α) (v : α) (eqFn : α → α → Bool) :
    o.containsE v eqFn = Except.ok (o.contains v eqFn) := by
  obtain ⟨w⟩ := o
  cases w <;> rfl

/-- Helper: `toArrayE` never propagates an error. -/
theorem toArrayE_ok (o : ExOption α) :
    o.toArrayE = Except.ok o.toArray := by
  obtain ⟨w⟩ := o
  cases w <;> rfl

/-- Helper: `toSetE` never propagates an error. -/
theorem toSetE_ok [DecidableEq α] (o : ExOption α) :
    o.toSetE = Except.ok o.toSet := by
  obtain ⟨w⟩ := o
  cases w <;> rfl

/-- Helper: `toStringE` never propagates an error. -/
theorem toStringE_ok (o : ExOption JSVal) :
    o.toStringE = Except.ok o.toString := by
  obtain ⟨w⟩ := o
  cases w <;> rfl

/-- Helper: `apE` never propagates an error. -/
theorem apE_ok (o : ExOption (CVal α)) (opt : ExOption α) :
    o.apE opt = Except.ok (o.ap opt) := by
  obtain ⟨v⟩ := o
  obtain ⟨w⟩ := opt
  cases v with
  | none => rfl
  | some c =>
      cases c with
      | scalar a => rfl
      | func f => cases w <;> rfl

/-- C3: no public operation raises.  The throwing branch of the private
accessor `internalGet` runs exactly on absent receivers, and every
public method that invokes `internalGet` does so only under a
presence guard, so its exception-propagating form always returns a
normal `Except.ok` value equal to the pure method; in particular
`get()` on an absent instance returns a None instance rather than
failing. -/
theorem public_api_never_throws :
    (∀ (α : Type) (o : ExOption α), exceptOk o.internalGet = o.isSome) ∧
    (∀ (α : Type) (a : α), (Some (some a) : ExOption α).internalGet = Except.ok a) ∧
    (∀ (α : Type), (None : ExOption α).get = Sum.inr None) ∧
    (∀ (α β : Type) (o : ExOption α) (v : β),
      o.getOrElseE v = Except.ok (o.getOrElse v)) ∧
    (∀ (α β : Type) (o : ExOption α) (fn : α → Option β),
      o.mapE fn = Except.ok (o.map fn)) ∧
    (∀ (α β : Type) (o : ExOption α) (fn : α → Option β) (alt : Option β),
      o.foldE fn alt = Except.ok (o.fold fn alt)) ∧
    (∀ (α β : Type) (o : ExOption α) (fn : α → ExOption β),
      o.flatMapE fn = Except.ok (o.flatMap fn)) ∧
    (∀ (α β : Type) (o : ExOption α) (fn : α → Option β ⊕ ExOption β),
      o.thenE fn = Except.ok (o.thenM fn)) ∧
    (∀ (o : ExOption JVal), o.flattenE = Except.ok o.flatten) ∧
    (∀ (α : Type) (o : ExOption α) (p : α → Bool),
      o.filterE p = Except.ok (o.filter p)) ∧
    (∀ (α : Type) (o : ExOption α) (p : α → Bool),
      o.filterNotE p = Except.ok (o.filterNot p)) ∧
    (∀ (α : Type) (o : ExOption α) (v : α) (eqFn : α → α → Bool),
      o.containsE v eqFn = Except.ok (o.contains v eqFn)) ∧
    (∀ (α : Type) (o : ExOption α), o.toArrayE = Except.ok o.toArray) ∧
    (∀ (α : Type) [DecidableEq α] (o : ExOption α),
      o.toSetE = Except.ok o.toSet) ∧
    (∀ (o : ExOption JSVal), o.toStringE = Except.ok o.toString) ∧
    (∀ (α : Type) (o : ExOption (CVal α)) (opt : ExOption α),
      o.apE opt = Except.ok (o.ap opt)) := by
  exact ⟨fun α o => internalGet_ok_iff_isSome o,
    fun α a => rfl,
    fun α => rfl,
    fun α β o v => getOrElseE_ok o v,
    fun α β o fn => mapE_ok o fn,
    fun α β o fn alt => foldE_ok o fn alt,
    fun α β o fn => flatMapE_ok o fn,
    fun α β o fn => thenE_ok o fn,
    fun o => flattenE_ok o,
    fun α o p => filterE_ok o p,
    fun α o p => filterNotE_ok o p,
    fun α o v eqFn => containsE_ok o v eqFn,
    fun α o => toArrayE_ok o,
    fun α _ o => toSetE_ok o,
    fun o => toStringE_ok o,
    fun α o opt => apE_ok o opt⟩

/-- C8: `liftN` seeds the accumulator with `args[0].map(() => fn)` and
folds `ap` from the left over the whole argument list; on the spec's
example with the curried `a => b => c => a + b + c` and the arguments
`some(18)`, `some(4)`, `some(6)` it yields `some(28)`; and if any
argument is absent the result is a None. -/
theorem liftN_spec :
    (∀ (α : Type) (fn : CVal α) (arg1 : ExOption α) (rest : List (ExOption α)),
      ExOption.liftN fn arg1 rest =
        List.foldl ExOption.ap (arg1.map (fun _ => some fn)) (arg1 :: rest)) ∧
    ExOption.liftN add3 (Some (some 18)) [Some (some 4), Some (some 6)] =
      Some (some (CVal.scalar 28)) ∧
    (∀ (α : Type) (fn : CVal α) (arg1 : ExOption α) (rest : List (ExOption α)),
      arg1 = None ∨ None ∈ rest → ExOption.liftN fn arg1 rest = None) := by
  refine ⟨?_, ?_, ?_⟩
  · intro α fn arg1 rest
    exact ExOption.recurse_eq_foldl (arg1 :: rest) (arg1.map (fun _ => some fn))
  · rfl
  · intro α fn arg1 rest h
    rcases h with rfl | h
    · exact ExOption.recurse_mem_none (None :: rest) _ (List.mem_cons_self _ _)
    · exact ExOption.recurse_mem_none (arg1 :: rest) _ (List.mem_cons_of_mem _ h)

/-- Witness for C8: applied at the concrete absent first argument, with
the hypothesis discharged by `Or.inl rfl`, `liftN` returns a None. -/
theorem liftN_spec_witness :
    ExOption.liftN add3 (None : ExOption Int) [Some (some 4)] = None :=
  liftN_spec.2.2 Int add3 None [Some (some 4)] (Or.inl rfl)
